import Mathlib

/-!
Verification of the single-file content board `src/app.py` (Flask app).

The embedding models:
  * `hash_password` (SHA-256 hex digest over the UTF-8 encoding, as
    `hashlib.sha256(password.encode('utf-8')).hexdigest()`),
  * the `Post` table and the board state (posts plus uploaded image files),
  * the four handlers `index`, `add_post`, `edit_post`, `delete_post` and the
    `login`/`logout` routes, each behind the `login_required` guard,
  * `paginate` of flask_sqlalchemy (external library, modelled from its
    documented behaviour with the default `error_out=True`).

Form fields are `Option String` (absent vs present); Python truthiness of a
field (`None` and the empty string are falsy) is `truthy`.  Machine words in
SHA-256 are `Nat` reduced modulo `2^32`.
-/

namespace Board

/-! ### SHA-256 (hashlib.sha256, external primitive used by hash_password) -/

/-- 32-bit truncation. -/
def w32 (n : Nat) : Nat := n % 4294967296

/-- Right rotation of a 32-bit word. -/
def rotr (x n : Nat) : Nat := w32 ((x >>> n) ||| (x <<< (32 - n)))

def bsig0 (x : Nat) : Nat := (rotr x 2) ^^^ (rotr x 13) ^^^ (rotr x 22)

def bsig1 (x : Nat) : Nat := (rotr x 6) ^^^ (rotr x 11) ^^^ (rotr x 25)

def ssig0 (x : Nat) : Nat := (rotr x 7) ^^^ (rotr x 18) ^^^ (x >>> 3)

def ssig1 (x : Nat) : Nat := (rotr x 17) ^^^ (rotr x 19) ^^^ (x >>> 10)

def ch (e f g : Nat) : Nat := (e &&& f) ^^^ ((e ^^^ 0xFFFFFFFF) &&& g)

def maj (a b c : Nat) : Nat := (a &&& b) ^^^ (a &&& c) ^^^ (b &&& c)

/-- The SHA-256 round constants (FIPS 180-4, written in decimal). -/
def sha256K : List Nat :=
  [1116352408, 1899447441, 3049323471, 3921009573,
   961987163, 1508970993, 2453635748, 2870763221,
   3624381080, 310598401, 607225278, 1426881987,
   1925078388, 2162078206, 2614888103, 3248222580,
   3835390401, 4022224774, 264347078, 604807628,
   770255983, 1249150122, 1555081692, 1996064986,
   2554220882, 2821834349, 2952996808, 3210313671,
   3336571891, 3584528711, 113926993, 338241895,
   666307205, 773529912, 1294757372, 1396182291,
   1695183700, 1986661051, 2177026350, 2456956037,
   2730485921, 2820302411, 3259730800, 3345764771,
   3516065817, 3600352804, 4094571909, 275423344,
   430227734, 506948616, 659060556, 883997877,
   958139571, 1322822218, 1537002063, 1747873779,
   1955562222, 2024104815, 2227730452, 2361852424,
   2428436474, 2756734187, 3204031479, 3329325298]

/-- The SHA-256 initial hash value (FIPS 180-4, written in decimal). -/
def sha256H0 : List Nat :=
  [1779033703, 3144134277, 1013904242, 2773480762,
   1359893119, 2600822924, 528734635, 1541459225]

/-- Big-endian 64-bit byte decomposition. -/
def be64 (n : Nat) : List Nat :=
  (List.range 8).map fun i => (n >>> ((7 - i) * 8)) % 256

/-- SHA-256 padding: append 0x80, zero bytes to 56 mod 64, then the bit
length as a big-endian 64-bit integer. -/
def padMessage (m : List Nat) : List Nat :=
  let L := m.length
  let zeros := (119 - (L % 64)) % 64
  m ++ [0x80] ++ List.replicate zeros 0 ++ be64 (L * 8)

/-- Split a byte list into chunks of 64 bytes (structural fuel so the kernel
can evaluate it; `l.length` steps always suffice). -/
def chunks64Aux : Nat → List Nat → List (List Nat)
  | _, [] => []
  | 0, _ => []
  | fuel + 1, x :: xs => (x :: xs).take 64 :: chunks64Aux fuel ((x :: xs).drop 64)

def chunks64 (l : List Nat) : List (List Nat) := chunks64Aux l.length l

/-- Pack 4 big-endian bytes into one 32-bit word, 16 words per block. -/
def blockWords : List Nat → List Nat
  | b0 :: b1 :: b2 :: b3 :: rest =>
      (((b0 * 256 + b1) * 256 + b2) * 256 + b3) :: blockWords rest
  | _ => []

/-- Extend the 16 message words to the 64-entry message schedule. -/
def extendSchedule (w : List Nat) : Nat → List Nat
  | 0 => w
  | k + 1 =>
      let w' := extendSchedule w k
      let t := w'.length
      w' ++ [w32 (ssig1 (w'.getD (t - 2) 0) + w'.getD (t - 7) 0 +
                  ssig0 (w'.getD (t - 15) 0) + w'.getD (t - 16) 0)]

/-- One SHA-256 compression round. -/
def round256 (st : List Nat) (kt wt : Nat) : List Nat :=
  match st with
  | [a, b, c, d, e, f, g, h] =>
      let t1 := w32 (h + bsig1 e + ch e f g + kt + wt)
      let t2 := w32 (bsig0 a + maj a b c)
      [w32 (t1 + t2), a, b, c, w32 (d + t1), e, f, g]
  | other => other

/-- Compress one 64-byte block into the running hash value. -/
def compress (h : List Nat) (block : List Nat) : List Nat :=
  let w := extendSchedule (blockWords block) 48
  let st := (sha256K.zip w).foldl (fun st kw => round256 st kw.1 kw.2) h
  (h.zip st).map fun p => w32 (p.1 + p.2)

/-- SHA-256 of a byte list, as the list of eight 32-bit hash words. -/
def sha256Words (m : List Nat) : List Nat :=
  (chunks64 (padMessage m)).foldl compress sha256H0

def hexDigit (n : Nat) : Char :=
  if n < 10 then Char.ofNat (48 + n) else Char.ofNat (87 + n)

/-- Lowercase hexadecimal rendering of a 32-bit word, 8 digits. -/
def hex32 (n : Nat) : List Char :=
  (List.range 8).map fun i => hexDigit ((n >>> ((7 - i) * 4)) % 16)

/-- UTF-8 encoding of one character (as Python's str.encode produces). -/
def utf8Char (c : Char) : List Nat :=
  let n := c.toNat
  if n < 0x80 then [n]
  else if n < 0x800 then
    [0xC0 ||| (n >>> 6), 0x80 ||| (n &&& 0x3F)]
  else if n < 0x10000 then
    [0xE0 ||| (n >>> 12), 0x80 ||| ((n >>> 6) &&& 0x3F), 0x80 ||| (n &&& 0x3F)]
  else
    [0xF0 ||| (n >>> 18), 0x80 ||| ((n >>> 12) &&& 0x3F),
     0x80 ||| ((n >>> 6) &&& 0x3F), 0x80 ||| (n &&& 0x3F)]

/-- UTF-8 byte sequence of a string (Python `s.encode('utf-8')`). -/
def utf8Bytes (s : String) : List Nat := s.data.flatMap utf8Char

/-- `hash_password(password)` from src/app.py:
`hashlib.sha256(password.encode('utf-8')).hexdigest()`. -/
def hash_password (password : String) : String :=
  ⟨(sha256Words (utf8Bytes password)).flatMap hex32⟩

/-! ### Data model -/

/-- The `Post` row of src/app.py.  Nullable columns are `Option String`;
`actor_name`, `author`, `password_hash` are NOT NULL. -/
structure Post where
  id : Nat
  actor_name : String
  link_url : Option String
  image_filename : Option String
  memo : Option String
  author : String
  password_hash : String
deriving Repr, DecidableEq

/-- The persistent state a request sees: the post table (in insertion order)
and the set of files in the upload folder `static/uploads`. -/
structure BoardState where
  posts : List Post
  files : List String
deriving Repr, DecidableEq

def emptyBoard : BoardState := { posts := [], files := [] }

/-- Python truthiness of a form value: `None` and `''` are falsy. -/
def truthy : Option String → Bool
  | none => false
  | some s => s ≠ ""

/-- The form fields of the add/edit requests.  `image` is the filename of the
uploaded file (`''` for an empty file input, `none` when absent). -/
structure PostForm where
  actor_name : Option String
  link_url : Option String
  memo : Option String
  author : Option String
  password : Option String
  image : Option String
deriving Repr, DecidableEq

/-- What a handler produces besides the new state. -/
inductive Outcome where
  /-- `redirect(url_for(target))`, optionally after `flash(msg)`. -/
  | redirect (target : String) (flash : Option String)
  /-- `render_template(tmpl)`, optionally after `flash(msg)`. -/
  | render (tmpl : String) (flash : Option String)
  /-- `abort(code)` raised inside `get_or_404` / `paginate`. -/
  | httpError (code : Nat)
  /-- an uncaught Python exception escaping the handler. -/
  | pyExn (name : String)
deriving Repr, DecidableEq

def flashRequired : String := "배우명, 작성자, 비밀번호는 필수 항목입니다."
def flashCreated : String := "게시글이 성공적으로 작성되었습니다."
def flashWrongPw : String := "비밀번호가 일치하지 않습니다."
def flashEdited : String := "게시글이 성공적으로 수정되었습니다."
def flashDeleted : String := "게시글이 삭제되었습니다."
def flashLoginWrong : String := "비밀번호가 올바르지 않습니다."

/-- The hardcoded login secret compared in the `login` route. -/
def loginSecret : String := "미쿠"

/-- Modelled from werkzeug.utils.secure_filename (external library): keeps
ASCII alphanumerics, dot, dash and underscore, turns whitespace into
underscores and drops everything else. -/
def secure_filename (fn : String) : String :=
  ⟨fn.data.filterMap fun c =>
    if c.isAlphanum ∧ c.toNat < 128 ∨ c = '.' ∨ c = '-' ∨ c = '_' then some c
    else if c = ' ' then some '_' else none⟩

/-- `Post.query.get(post_id)`: primary-key lookup. -/
def getPost (st : BoardState) (post_id : Nat) : Option Post :=
  st.posts.find? fun p => p.id = post_id

/-- SQLite assigns a new rowid of one plus the largest existing id. -/
def newId (st : BoardState) : Nat :=
  (st.posts.map Post.id).foldr max 0 + 1

/-- `image.save(...)` into the upload folder (overwrites an existing file of
the same name). -/
def saveFile (files : List String) (fn : String) : List String :=
  if fn ∈ files then files else files ++ [fn]

/-- `os.remove` of a stored image, guarded by `try/except` in the source:
`removeOk` says whether the OS call succeeds; on failure the file stays and
the exception is swallowed. -/
def tryRemove (files : List String) (fn : String) (removeOk : Bool) :
    List String :=
  if removeOk then files.erase fn else files

/-! ### Handlers (src/app.py) -/

/-- The image block of `add_post`: `if image and image.filename != ''`, the
sanitized file is saved; the pair is the new file table and the value stored
in `image_filename`. -/
def addImage (files : List String) (image : Option String) :
    List String × Option String :=
  match image with
  | some fn =>
      if fn ≠ "" then
        let sfn := secure_filename fn
        (saveFile files sfn, some sfn)
      else (files, none)
  | none => (files, none)

/-- `add_post` (POST /add).  Validation: `if not all([actor_name, author,
password])` flashes and redirects before any write; otherwise the image (if
any) is saved and the new row inserted. -/
def add_post (st : BoardState) (f : PostForm) : BoardState × Outcome :=
  if ¬ (truthy f.actor_name ∧ truthy f.author ∧ truthy f.password) then
    (st, .redirect "index" (some flashRequired))
  else
    let an := f.actor_name.getD ""
    let au := f.author.getD ""
    let pw := f.password.getD ""
    let fi := addImage st.files f.image
    let newPost : Post :=
      { id := newId st
        actor_name := an
        link_url := f.link_url
        image_filename := fi.2
        memo := f.memo
        author := au
        password_hash := hash_password pw }
    ({ posts := st.posts ++ [newPost], files := fi.1 },
     .redirect "index" (some flashCreated))

/-- The image block of `edit_post`: on a nonempty upload the old file (if
the row names one) is removed best-effort, the new one saved and its name
stored; otherwise the stored `image_filename` is kept. -/
def editImage (files : List String) (post : Post) (image : Option String)
    (removeOk : Bool) : List String × Option String :=
  match image with
  | some fn =>
      if fn ≠ "" then
        let files₁ :=
          match post.image_filename with
          | some old => if old ≠ "" then tryRemove files old removeOk
                        else files
          | none => files
        let sfn := secure_filename fn
        (saveFile files₁ sfn, some sfn)
      else (files, post.image_filename)
  | none => (files, post.image_filename)

/-- `edit_post` (POST /edit/<int:post_id>).  `get_or_404`, then the password
check (`hash_password(None)` raises AttributeError when the field is absent),
then the four mutable fields are assigned from the form and the image is
optionally replaced; `db.session.commit()` raises IntegrityError when a
NOT NULL column was assigned `None` (the row is left unchanged then, but the
file operations have already happened). -/
def edit_post (st : BoardState) (post_id : Nat) (f : PostForm)
    (removeOk : Bool) : BoardState × Outcome :=
  match getPost st post_id with
  | none => (st, .httpError 404)
  | some post =>
    match f.password with
    | none => (st, .pyExn "AttributeError")
    | some pw =>
      if post.password_hash ≠ hash_password pw then
        (st, .redirect "index" (some flashWrongPw))
      else
        let fi := editImage st.files post f.image removeOk
        match f.actor_name, f.author with
        | some an, some au =>
            let post' : Post :=
              { post with
                  actor_name := an
                  link_url := f.link_url
                  memo := f.memo
                  author := au
                  image_filename := fi.2 }
            ({ posts := st.posts.map fun p => if p.id = post_id then post' else p
               files := fi.1 },
             .redirect "index" (some flashEdited))
        | _, _ => ({ st with files := fi.1 }, .pyExn "IntegrityError")

/-- The form fields of the delete request; `post_id` is the parsed integer
form value (`none` when absent or not naming a row, which `get_or_404`
turns into a 404). -/
structure DeleteForm where
  post_id : Option Nat
  password : Option String
deriving Repr, DecidableEq

/-- `delete_post` (POST /delete).  `get_or_404`, then the password check
(raising AttributeError when the field is absent); on a match the stored
image is removed best-effort and the row deleted, on a mismatch only a flash
is emitted. -/
def delete_post (st : BoardState) (f : DeleteForm) (removeOk : Bool) :
    BoardState × Outcome :=
  match f.post_id.bind (getPost st) with
  | none => (st, .httpError 404)
  | some post =>
    match f.password with
    | none => (st, .pyExn "AttributeError")
    | some pw =>
      if post.password_hash = hash_password pw then
        let files' :=
          match post.image_filename with
          | some old => if old ≠ "" then tryRemove st.files old removeOk
                        else st.files
          | none => st.files
        ({ posts := st.posts.filter fun p => p.id ≠ post.id, files := files' },
         .redirect "index" (some flashDeleted))
      else
        (st, .redirect "index" (some flashWrongPw))

/-- `ORDER BY id DESC`: the listing the index view renders. -/
def listing (st : BoardState) : List Post :=
  List.insertionSort (fun a b => b.id ≤ a.id) st.posts

/-- Modelled from flask_sqlalchemy `Query.paginate` with its default
`error_out=True`: a page below 1 aborts 404, and an empty slice on a page
other than 1 aborts 404. -/
def paginate (l : List Post) (page : Int) (perPage : Nat) :
    Except Nat (List Post) :=
  if page < 1 then .error 404
  else
    let p := page.toNat
    let items := (l.drop ((p - 1) * perPage)).take perPage
    if items.isEmpty ∧ p ≠ 1 then .error 404 else .ok items

/-- `index` (GET /): paginated listing, `page` from the query string
(default 1), `per_page=10`. -/
def index (st : BoardState) (page : Int) : Except Nat (List Post) :=
  paginate (listing st) page 10

/-! ### Session guard and login -/

/-- A Python value stored in the session dict (to express that any value,
falsy ones included, may sit under `'logged_in'`). -/
inductive PyVal where
  | vNone
  | vBool (b : Bool)
  | vInt (n : Int)
  | vStr (s : String)
deriving Repr, DecidableEq

/-- The flask session: a string-keyed dict. -/
abbrev Session := List (String × PyVal)

/-- `'logged_in' in session` of the `login_required` decorator. -/
def sessionHasLoggedIn (sess : Session) : Bool :=
  sess.any fun kv => kv.1 = "logged_in"

/-- `session['logged_in'] = True`. -/
def sessionSetLoggedIn (sess : Session) : Session :=
  (sess.filter fun kv => kv.1 ≠ "logged_in") ++ [("logged_in", .vBool true)]

/-- `session.pop('logged_in', None)`. -/
def sessionPopLoggedIn (sess : Session) : Session :=
  sess.filter fun kv => kv.1 ≠ "logged_in"

/-- `login` (POST /login): the submitted password is compared in plaintext
against the hardcoded secret; `hash_password` is not involved. -/
def login_post (sess : Session) (password : Option String) :
    Session × Outcome :=
  if password = some loginSecret then
    (sessionSetLoggedIn sess, .redirect "index" none)
  else
    (sess, .render "login.html" (some flashLoginWrong))

/-- `logout` (GET /logout). -/
def logout (sess : Session) : Session × Outcome :=
  (sessionPopLoggedIn sess, .redirect "login" none)

/-! ### Guarded routes: each handler behind `login_required`. -/

def indexRoute (sess : Session) (st : BoardState) (page : Int) :
    BoardState × Outcome :=
  if ¬ sessionHasLoggedIn sess then (st, .redirect "login" none)
  else
    match index st page with
    | .ok _ => (st, .render "index.html" none)
    | .error c => (st, .httpError c)

def addRoute (sess : Session) (st : BoardState) (f : PostForm) :
    BoardState × Outcome :=
  if ¬ sessionHasLoggedIn sess then (st, .redirect "login" none)
  else add_post st f

def editRoute (sess : Session) (st : BoardState) (post_id : Nat)
    (f : PostForm) (removeOk : Bool) : BoardState × Outcome :=
  if ¬ sessionHasLoggedIn sess then (st, .redirect "login" none)
  else edit_post st post_id f removeOk

def deleteRoute (sess : Session) (st : BoardState) (f : DeleteForm)
    (removeOk : Bool) : BoardState × Outcome :=
  if ¬ sessionHasLoggedIn sess then (st, .redirect "login" none)
  else delete_post st f removeOk

/-! ### Creation sequences and pagination arithmetic (for the listing claim) -/

/-- The create handler's validation predicate, as a Boolean. -/
def validForm (f : PostForm) : Bool :=
  truthy f.actor_name && truthy f.author && truthy f.password

/-- A sequence of create requests applied in order. -/
def createMany (st : BoardState) (fs : List PostForm) : BoardState :=
  fs.foldl (fun s f => (add_post s f).1) st

/-- Number of pages a listing of `n` posts occupies at page size `k`. -/
def numPages (n k : Nat) : Nat := (n + k - 1) / k

/-- The slice of the listing shown on (1-indexed) page `i` at page size
`k`. -/
def pageSlice (l : List Post) (i k : Nat) : List Post :=
  (l.drop ((i - 1) * k)).take k

/-- The ids of the stored posts increase along the table (the insertion
order). -/
def idsIncreasing (l : List Post) : Prop :=
  l.Pairwise (fun a b => a.id < b.id)

instance : IsTotal Post (fun a b => b.id ≤ a.id) :=
  ⟨fun a b => Nat.le_total b.id a.id⟩

instance : IsTrans Post (fun a b => b.id ≤ a.id) :=
  ⟨fun _ _ _ hab hbc => Nat.le_trans hbc hab⟩

/-! ### Concrete boards and forms used by witnesses and counterexamples -/

def post1 : Post :=
  { id := 1, actor_name := "Ava", link_url := none, image_filename := none,
    memo := none, author := "Bob", password_hash := hash_password "pw1" }

def board1 : BoardState := { posts := [post1], files := [] }

def postImg : Post :=
  { id := 1, actor_name := "Ava", link_url := none,
    image_filename := some "pic.jpg",
    memo := none, author := "Bob", password_hash := hash_password "pw1" }

def boardImg : BoardState := { posts := [postImg], files := ["pic.jpg"] }

def editForm : PostForm :=
  { actor_name := some "Ava2", link_url := some "http://x", memo := some "m",
    author := some "Bob", password := some "pw1", image := none }

def addFormA : PostForm :=
  { actor_name := some "Ava", link_url := none, memo := none,
    author := some "Bob", password := some "pw1", image := none }

def addFormB : PostForm :=
  { actor_name := some "Cleo", link_url := none, memo := some "n",
    author := some "Dan", password := some "pw2", image := none }

/-! ### Helper lemmas -/

theorem le_foldr_max (l : List Nat) : ∀ x ∈ l, x ≤ l.foldr max 0 := by
  induction l with
  | nil => simp
  | cons a t ih =>
      intro x hx
      rcases List.mem_cons.mp hx with h | h
      · subst h; exact le_max_left _ _
      · exact le_trans (ih x h) (le_max_right _ _)

/-- Every stored id is strictly below the id SQLite hands to the next
insert. -/
theorem id_lt_newId (st : BoardState) : ∀ p ∈ st.posts, p.id < newId st := by
  intro p hp
  have : p.id ≤ (st.posts.map Post.id).foldr max 0 :=
    le_foldr_max _ _ (List.mem_map_of_mem Post.id hp)
  unfold newId
  omega

/-- A valid create appends exactly one row, carrying the fresh id. -/
theorem add_post_valid_appends (st : BoardState) (f : PostForm)
    (hv : validForm f = true) :
    ∃ p, (add_post st f).1.posts = st.posts ++ [p] ∧ p.id = newId st := by
  have hv' : truthy f.actor_name ∧ truthy f.author ∧ truthy f.password := by
    have h := hv
    simp only [validForm, Bool.and_eq_true] at h
    exact ⟨h.1.1, h.1.2, h.2⟩
  unfold add_post
  rw [if_neg (not_not_intro hv')]
  exact ⟨_, rfl, rfl⟩

/-- A sequence of valid creations keeps the ids strictly increasing along
the table and adds one row per request. -/
theorem createMany_invariant (fs : List PostForm) :
    ∀ st : BoardState, (∀ f ∈ fs, validForm f = true) →
      idsIncreasing st.posts →
      idsIncreasing (createMany st fs).posts ∧
        (createMany st fs).posts.length = st.posts.length + fs.length := by
  induction fs with
  | nil => intro st _ hinv; exact ⟨hinv, by simp [createMany]⟩
  | cons f t ih =>
      intro st hv hinv
      obtain ⟨p, hposts, hid⟩ := add_post_valid_appends st f (hv f (by simp))
      have hstep : idsIncreasing (add_post st f).1.posts := by
        rw [hposts]
        unfold idsIncreasing
        rw [List.pairwise_append]
        refine ⟨hinv, by simp, ?_⟩
        intro a ha b hb
        rw [List.mem_singleton] at hb
        subst hb
        rw [hid]
        exact id_lt_newId st a ha
      have hlen : (add_post st f).1.posts.length = st.posts.length + 1 := by
        rw [hposts]; simp
      have hrest := ih (add_post st f).1 (fun g hg => hv g (by simp [hg])) hstep
      have hcm : createMany st (f :: t) = createMany (add_post st f).1 t := rfl
      rw [hcm]
      refine ⟨hrest.1, ?_⟩
      rw [hrest.2, hlen]
      simp only [List.length_cons]
      omega

theorem listing_sorted (st : BoardState) :
    (listing st).Sorted (fun a b => b.id ≤ a.id) :=
  List.sorted_insertionSort _ _

theorem listing_perm (st : BoardState) : (listing st).Perm st.posts :=
  List.perm_insertionSort _ _

/-- With pairwise-distinct ids in the table, the rendered listing is
strictly descending in `id`. -/
theorem listing_strict_desc (st : BoardState)
    (hinv : idsIncreasing st.posts) :
    (listing st).Pairwise (fun a b => b.id < a.id) := by
  have hne : st.posts.Pairwise (fun a b => a.id ≠ b.id) :=
    hinv.imp (fun h => Nat.ne_of_lt h)
  have hne' : (listing st).Pairwise (fun a b => a.id ≠ b.id) :=
    ((listing_perm st).pairwise_iff (fun h => h.symm)).mpr hne
  have := (listing_sorted st).and hne'
  exact this.imp fun h => lt_of_le_of_ne h.1 (fun hc => h.2 (hc.symm ▸ rfl))

/-- Pages 1 through `numPages` are served without error and contain exactly
the corresponding slice of the listing. -/
theorem paginate_ok (l : List Post) (k i : Nat) (hk : 0 < k)
    (hi1 : 1 ≤ i) (hile : i ≤ numPages l.length k) :
    paginate l (i : Int) k = .ok (pageSlice l i k) := by
  have hmul : i * k ≤ l.length + k - 1 :=
    (Nat.le_div_iff_mul_le hk).mp hile
  have hsplit : (i - 1) * k + k = i * k := by
    have : (i - 1) + 1 = i := Nat.sub_add_cancel hi1
    calc (i - 1) * k + k = ((i - 1) + 1) * k := by ring
    _ = i * k := by rw [this]
  have hki : k ≤ i * k := Nat.le_mul_of_pos_left k hi1
  have hlt : (i - 1) * k < l.length := by omega
  have htn : (i : Int).toNat = i := Int.toNat_ofNat i
  have hne : (((l.drop ((i - 1) * k)).take k).isEmpty = true ∧ i ≠ 1) = False := by
    simp only [eq_iff_iff, iff_false, not_and]
    intro hempty
    rw [List.isEmpty_iff] at hempty
    have hze := congrArg List.length hempty
    rw [List.length_take, List.length_drop] at hze
    simp only [List.length_nil] at hze
    omega
  unfold paginate
  rw [if_neg (by exact_mod_cast Nat.not_lt.mpr hi1)]
  simp only [htn, hne, if_false, pageSlice]

/-- One page worth of posts, then the pages of the rest: `numPages` counts
one page for the first `k` posts of a non-empty listing. -/
theorem numPages_succ (k : Nat) (hk : 0 < k) (len : Nat) (h1 : 1 ≤ len) :
    numPages len k = numPages (len - k) k + 1 := by
  unfold numPages
  have h2 : len + k - 1 = (len - 1) + k := by omega
  rw [h2, Nat.add_div_right _ hk]
  congr 1
  by_cases hkl : k ≤ len
  · have h3 : len - k + k - 1 = len - 1 := by omega
    rw [h3]
  · have h3 : len - k = 0 := by omega
    rw [h3]
    rw [Nat.div_eq_of_lt (by omega), Nat.div_eq_of_lt (by omega)]

/-- Concatenating the slices of all pages restores the full listing. -/
theorem join_pageSlices (k : Nat) (hk : 0 < k) :
    ∀ (n : Nat) (l : List Post), l.length ≤ n →
      ((List.range (numPages l.length k)).map
        fun j => (l.drop (j * k)).take k).flatten = l := by
  intro n
  induction n with
  | zero =>
      intro l hl
      have h0 : l = [] := List.length_eq_zero.mp (Nat.le_zero.mp hl)
      subst h0
      have hz : numPages 0 k = 0 := by
        unfold numPages
        exact Nat.div_eq_of_lt (by omega)
      simp [hz]
  | succ n ih =>
      intro l hl
      cases l with
      | nil =>
          have hz : numPages 0 k = 0 := by
            unfold numPages
            exact Nat.div_eq_of_lt (by omega)
          simp [hz]
      | cons x xs =>
          have hlen1 : 1 ≤ (x :: xs).length := by simp
          have hnp : numPages (x :: xs).length k =
              numPages ((x :: xs).drop k).length k + 1 := by
            rw [List.length_drop]
            exact numPages_succ k hk _ hlen1
          rw [hnp, List.range_succ_eq_map, List.map_cons, List.map_map,
            List.flatten_cons]
          have hfun : ((fun j => ((x :: xs).drop (j * k)).take k) ∘ Nat.succ) =
              fun j => (((x :: xs).drop k).drop (j * k)).take k := by
            funext j
            simp only [Function.comp_apply, List.drop_drop]
            congr 2
            rw [Nat.succ_mul, Nat.mul_comm j k, Nat.add_comm]
          rw [hfun]
          rw [ih ((x :: xs).drop k) (by rw [List.length_drop]; simp at hl ⊢; omega)]
          simp only [Nat.zero_mul, List.drop_zero]
          exact List.take_append_drop k (x :: xs)

/-! ### Claims -/

/-- C1.  `update`/`delete` with an incorrect password (one whose digest
differs from the stored `password_hash`) leave the whole state — row count,
every field of every post, and the stored files — bit-identical. -/
theorem edit_delete_wrong_password_unchanged
    (st : BoardState) (post_id : Nat) (post : Post) (f : PostForm)
    (df : DeleteForm) (pw pw' : String) (ro ro' : Bool)
    (hget : getPost st post_id = some post)
    (hfp : f.password = some pw)
    (hne : hash_password pw ≠ post.password_hash)
    (hdid : df.post_id = some post_id)
    (hdp : df.password = some pw')
    (hne' : hash_password pw' ≠ post.password_hash) :
    (edit_post st post_id f ro).1 = st ∧ (delete_post st df ro').1 = st := by
  constructor
  · unfold edit_post
    rw [hget, hfp]
    simp only [Ne.symm hne, ne_eq, not_false_eq_true, if_true]
  · unfold delete_post
    rw [hdid]
    simp only [Option.some_bind, hget, hdp]
    rw [if_neg (fun h => hne' h.symm)]

/-- C1 witness: a concrete post and a concrete wrong password. -/
theorem edit_delete_wrong_password_unchanged_w :
    (edit_post board1 1 { editForm with password := some "pw2" } true).1 =
        board1 ∧
    (delete_post board1 { post_id := some 1, password := some "pw2" }
        true).1 = board1 :=
  edit_delete_wrong_password_unchanged board1 1 post1
    { editForm with password := some "pw2" }
    { post_id := some 1, password := some "pw2" } "pw2" "pw2" true true
    (by decide) rfl (by decide) rfl rfl (by decide)

/-- C2.  A create request with `actor_name`, `author` or the password empty
or absent performs zero writes — no row is inserted, no image file is saved —
and flashes the validation message while redirecting to the index. -/
theorem add_post_missing_required_no_write
    (st : BoardState) (f : PostForm)
    (h : ¬ (truthy f.actor_name ∧ truthy f.author ∧ truthy f.password)) :
    add_post st f = (st, .redirect "index" (some flashRequired)) := by
  unfold add_post
  rw [if_pos h]

/-- C2 witness: a create request with an image but no password writes
nothing. -/
theorem add_post_missing_required_no_write_w :
    add_post board1
        { actor_name := some "Ava", link_url := none, memo := none,
          author := some "Bob", password := none, image := some "x.png" } =
      (board1, .redirect "index" (some flashRequired)) :=
  add_post_missing_required_no_write board1 _ (by decide)

/-- Looking up an id after an id-preserving in-place update of that row
finds exactly the updated row. -/
theorem find?_map_update (l : List Post) (pid : Nat) (post post' : Post)
    (hfind : l.find? (fun p => p.id = pid) = some post)
    (hid' : post'.id = post.id) :
    (l.map fun p => if p.id = pid then post' else p).find?
        (fun p => p.id = pid) = some post' := by
  have hid : post.id = pid := by
    have := List.find?_some hfind
    simpa using this
  rw [List.find?_map]
  have hpred :
      ((fun p : Post => decide (p.id = pid)) ∘
        (fun p : Post => if p.id = pid then post' else p)) =
      fun p : Post => decide (p.id = pid) := by
    funext p
    by_cases hp : p.id = pid
    · simp [hp, hid', hid]
    · simp [hp]
  rw [hpred, hfind]
  simp [hid]

/-- C3.  An edit submitted with the correct password keeps the post's `id`
and `password_hash` bit-identical, whatever the submitted field values are
and whether or not the commit succeeds. -/
theorem edit_correct_password_preserves_id_digest
    (st : BoardState) (post_id : Nat) (post : Post) (f : PostForm)
    (pw : String) (ro : Bool)
    (hget : getPost st post_id = some post)
    (hfp : f.password = some pw)
    (hok : post.password_hash = hash_password pw) :
    ∃ post', getPost (edit_post st post_id f ro).1 post_id = some post' ∧
      post'.id = post.id ∧ post'.password_hash = post.password_hash := by
  simp only [edit_post, hget, hfp]
  rw [if_neg (not_not_intro hok)]
  cases han : f.actor_name with
  | none => exact ⟨post, hget, rfl, rfl⟩
  | some an =>
      cases hau : f.author with
      | none => exact ⟨post, hget, rfl, rfl⟩
      | some au =>
          exact ⟨_, find?_map_update st.posts post_id post _ hget rfl, rfl, rfl⟩

/-- C3 witness: a concrete edit changing every mutable field. -/
theorem edit_correct_password_preserves_id_digest_w :
    ∃ post', getPost (edit_post board1 1 editForm false).1 1 = some post' ∧
      post'.id = post1.id ∧ post'.password_hash = post1.password_hash :=
  edit_correct_password_preserves_id_digest board1 1 post1 editForm "pw1"
    false (by decide) rfl (by decide)

/-- C9.  Deleting a post that has an associated image with the correct
password removes the row whether or not the underlying `os.remove` succeeds:
the failure is swallowed and the deleted id is gone from the table. -/
theorem delete_removes_row_despite_image_failure
    (st : BoardState) (pid : Nat) (post : Post) (df : DeleteForm)
    (pw : String)
    (hdid : df.post_id = some pid)
    (hget : getPost st pid = some post)
    (_himg : ∃ fn, post.image_filename = some fn)
    (hdp : df.password = some pw)
    (hok : post.password_hash = hash_password pw) :
    ∀ removeOk : Bool,
      (delete_post st df removeOk).1.posts =
          st.posts.filter (fun p => p.id ≠ post.id) ∧
      getPost (delete_post st df removeOk).1 post.id = none := by
  intro removeOk
  unfold delete_post
  rw [hdid]
  simp only [Option.some_bind, hget, hdp]
  rw [if_pos hok]
  refine ⟨rfl, ?_⟩
  unfold getPost
  simp only [List.find?_eq_none, List.mem_filter, decide_eq_true_eq]
  intro p hp
  simp only [ne_eq, decide_not, Bool.not_eq_eq_eq_not, Bool.not_true,
    decide_eq_false_iff_not] at hp
  simp [hp.2]

/-- C9 witness: the row disappears both when the file removal succeeds and
when it is simulated to fail. -/
theorem delete_removes_row_despite_image_failure_w :
    ((delete_post boardImg { post_id := some 1, password := some "pw1" }
        false).1.posts =
      boardImg.posts.filter (fun p => p.id ≠ postImg.id) ∧
    getPost (delete_post boardImg
        { post_id := some 1, password := some "pw1" } false).1 postImg.id =
      none) :=
  delete_removes_row_despite_image_failure boardImg 1 postImg
    { post_id := some 1, password := some "pw1" } "pw1" rfl (by decide)
    ⟨"pic.jpg", rfl⟩ rfl (by decide) false

/-- C10.  The `login_required` guard passes exactly when the session dict
contains the key `'logged_in'`, whatever value (falsy included) is stored
under it; a session without the key is redirected to the login page by every
guarded route, with the state untouched. -/
theorem login_required_passes_iff_key_present (sess : Session) :
    (sessionHasLoggedIn sess = true ↔ ∃ v, ("logged_in", v) ∈ sess) ∧
    (sessionHasLoggedIn sess = false →
      ∀ (st : BoardState) (page : Int) (f : PostForm) (pid : Nat)
        (df : DeleteForm) (ro ro' : Bool),
        indexRoute sess st page = (st, .redirect "login" none) ∧
        addRoute sess st f = (st, .redirect "login" none) ∧
        editRoute sess st pid f ro = (st, .redirect "login" none) ∧
        deleteRoute sess st df ro' = (st, .redirect "login" none)) := by
  constructor
  · unfold sessionHasLoggedIn
    rw [List.any_eq_true]
    constructor
    · rintro ⟨⟨k, v⟩, hmem, hk⟩
      simp only [decide_eq_true_eq] at hk
      exact ⟨v, by simpa [hk] using hmem⟩
    · rintro ⟨v, hmem⟩
      exact ⟨("logged_in", v), hmem, by simp⟩
  · intro hno st page f pid df ro ro'
    have hno' : ¬ sessionHasLoggedIn sess = true := by simp [hno]
    refine ⟨?_, ?_, ?_, ?_⟩ <;>
      simp [indexRoute, addRoute, editRoute, deleteRoute, hno']

/-- C5 counterexample: on a board with one post the last non-empty page is
page 1, yet requesting page 2 signals an HTTP 404 error instead of returning
an empty sequence (`paginate` defaults to `error_out=True`). -/
theorem index_page_beyond_last_errors :
    index board1 2 = .error 404 ∧ (listing board1).length = 1 := by
  constructor <;> rfl

/-- C5 amended: requesting a page strictly beyond the last aborts with
HTTP 404; only page 1 never errors (returning the first ten posts, or the
empty sequence on an empty board). -/
theorem index_beyond_last_page_behaviour
    (st : BoardState) (page : Int)
    (h2 : 2 ≤ page)
    (hbeyond : (listing st).length ≤ (page.toNat - 1) * 10) :
    index st page = .error 404 ∧ index st 1 = .ok ((listing st).take 10) := by
  have hlt : ¬ page < 1 := by omega
  have hp1 : page.toNat ≠ 1 := by omega
  constructor
  · simp [index, paginate, hlt, hp1, List.drop_eq_nil_of_le hbeyond]
  · simp [index, paginate]

/-- C5 amended witness: on the empty board page 2 aborts 404 while page 1
returns the empty sequence without error. -/
theorem index_beyond_last_page_behaviour_w :
    index emptyBoard 2 = .error 404 ∧
    index emptyBoard 1 = .ok ((listing emptyBoard).take 10) :=
  index_beyond_last_page_behaviour emptyBoard 2 (by decide) (by decide)

/-- C6 counterexample: an edit submitted with the correct password and an
empty `actor_name` is accepted and persists a post whose `actor_name` is
empty — the edit handler performs no validation of the required fields. -/
theorem edit_persists_empty_subject :
    ((edit_post board1 1
        { actor_name := some "", link_url := none, memo := none,
          author := some "Bob", password := some "pw1", image := none }
        true).1.posts.map Post.actor_name = [""]) ∧
    (edit_post board1 1
        { actor_name := some "", link_url := none, memo := none,
          author := some "Bob", password := some "pw1", image := none }
        true).2 = .redirect "index" (some flashEdited) := by
  constructor <;> rfl

/-- C6 amended: creation validates the required fields, so every post it
persists has non-empty `actor_name` and `author`, and deletion preserves
that invariant; the edit handler does not (it can persist empty values). -/
theorem create_delete_preserve_required_nonempty
    (st : BoardState)
    (hinv : ∀ p ∈ st.posts, p.actor_name ≠ "" ∧ p.author ≠ "") :
    (∀ f : PostForm, ∀ p ∈ (add_post st f).1.posts,
        p.actor_name ≠ "" ∧ p.author ≠ "") ∧
    (∀ (df : DeleteForm) (ro : Bool), ∀ p ∈ (delete_post st df ro).1.posts,
        p.actor_name ≠ "" ∧ p.author ≠ "") := by
  constructor
  · intro f p hp
    unfold add_post at hp
    by_cases hv : truthy f.actor_name ∧ truthy f.author ∧ truthy f.password
    · rw [if_neg (not_not_intro hv)] at hp
      simp only [List.mem_append, List.mem_singleton] at hp
      rcases hp with hp | hp
      · exact hinv p hp
      · subst hp
        obtain ⟨ha, hb, _⟩ := hv
        cases hfa : f.actor_name with
        | none => rw [hfa] at ha; exact absurd ha (by simp [truthy])
        | some an =>
            cases hfb : f.author with
            | none => rw [hfb] at hb; exact absurd hb (by simp [truthy])
            | some au =>
                rw [hfa] at ha
                rw [hfb] at hb
                simp only [truthy, ne_eq, decide_eq_true_eq] at ha hb
                simp [hfa, hfb, ha, hb]
    · rw [if_pos hv] at hp
      exact hinv p hp
  · intro df ro p hp
    unfold delete_post at hp
    cases hfind : df.post_id.bind (getPost st) with
    | none => rw [hfind] at hp; exact hinv p hp
    | some post =>
        rw [hfind] at hp
        cases hdp : df.password with
        | none => rw [hdp] at hp; exact hinv p hp
        | some pw =>
            rw [hdp] at hp
            by_cases hok : post.password_hash = hash_password pw
            · simp only [if_pos hok, List.mem_filter] at hp
              exact hinv p hp.1
            · simp only [if_neg hok] at hp
              exact hinv p hp

/-- C6 amended witness: the row produced by a concrete valid creation on the
empty board has non-empty required fields. -/
theorem create_delete_preserve_required_nonempty_w :
    post1.actor_name ≠ "" ∧ post1.author ≠ "" :=
  (create_delete_preserve_required_nonempty emptyBoard
    (by simp [emptyBoard])).1 addFormA post1 (by decide)

/-- C8 counterexample: an edit or delete request with the password field
absent makes the handler evaluate `hash_password(None)`, which raises an
uncaught AttributeError instead of redirecting. -/
theorem edit_delete_missing_password_raises :
    edit_post board1 1
        { actor_name := some "X", link_url := none, memo := none,
          author := some "Y", password := none, image := none } true =
      (board1, .pyExn "AttributeError") ∧
    delete_post board1 { post_id := some 1, password := none } true =
      (board1, .pyExn "AttributeError") := by
  constructor <;> rfl

/-- C8 amended: the create handler always redirects, the list handler only
ever signals 404, and the edit/delete handlers redirect or 404 whenever the
password field is present (for edit also `actor_name` and `author`); but an
absent password raises AttributeError and an absent `actor_name`/`author`
on a correct-password edit raises IntegrityError at commit. -/
theorem handlers_redirect_when_required_fields_present
    (st : BoardState) (pid : Nat) (f f₂ : PostForm) (df : DeleteForm)
    (ro ro' : Bool) (page : Int)
    (hfp : f.password ≠ none) (hfa : f.actor_name ≠ none)
    (hfb : f.author ≠ none) (hdp : df.password ≠ none) :
    ((edit_post st pid f ro).2 = .httpError 404 ∨
      ∃ fl, (edit_post st pid f ro).2 = .redirect "index" (some fl)) ∧
    ((delete_post st df ro').2 = .httpError 404 ∨
      ∃ fl, (delete_post st df ro').2 = .redirect "index" (some fl)) ∧
    (∃ fl, (add_post st f₂).2 = .redirect "index" (some fl)) ∧
    (∀ c, index st page = .error c → c = 404) := by
  refine ⟨?_, ?_, ?_, ?_⟩
  · unfold edit_post
    cases hfind : getPost st pid with
    | none => exact Or.inl rfl
    | some post =>
        cases hpw : f.password with
        | none => exact absurd hpw hfp
        | some pw =>
            by_cases hok : post.password_hash = hash_password pw
            · cases han : f.actor_name with
              | none => exact absurd han hfa
              | some an =>
                  cases hau : f.author with
                  | none => exact absurd hau hfb
                  | some au =>
                      refine Or.inr ⟨flashEdited, ?_⟩
                      simp only [if_neg (not_not_intro hok)]
            · refine Or.inr ⟨flashWrongPw, ?_⟩
              simp only [if_pos hok]
  · unfold delete_post
    cases hfind : df.post_id.bind (getPost st) with
    | none => exact Or.inl rfl
    | some post =>
        cases hdpw : df.password with
        | none => exact absurd hdpw hdp
        | some dpw =>
            by_cases hok : post.password_hash = hash_password dpw
            · refine Or.inr ⟨flashDeleted, ?_⟩
              simp only [if_pos hok]
            · refine Or.inr ⟨flashWrongPw, ?_⟩
              simp only [if_neg hok]
  · unfold add_post
    by_cases hv : truthy f₂.actor_name ∧ truthy f₂.author ∧ truthy f₂.password
    · rw [if_neg (not_not_intro hv)]
      exact ⟨flashCreated, rfl⟩
    · rw [if_pos hv]
      exact ⟨flashRequired, rfl⟩
  · intro c hc
    unfold index paginate at hc
    split at hc
    · exact (Except.error.inj hc).symm
    · dsimp only at hc
      split at hc
      · exact (Except.error.inj hc).symm
      · simp at hc

/-- C8 amended witness: concrete requests with the password fields present
are answered with redirects. -/
theorem handlers_redirect_when_required_fields_present_w :
    ((edit_post board1 1 editForm true).2 = .httpError 404 ∨
      ∃ fl, (edit_post board1 1 editForm true).2 =
        .redirect "index" (some fl)) ∧
    ((delete_post board1 { post_id := some 1, password := some "nope" }
        true).2 = .httpError 404 ∨
      ∃ fl, (delete_post board1
          { post_id := some 1, password := some "nope" } true).2 =
        .redirect "index" (some fl)) ∧
    (∃ fl, (add_post board1 editForm).2 = .redirect "index" (some fl)) ∧
    (∀ c, index board1 3 = .error c → c = 404) :=
  handlers_redirect_when_required_fields_present board1 1 editForm editForm
    { post_id := some 1, password := some "nope" } true true 3
    (by decide) (by decide) (by decide) (by decide)

/-- C4.  After `N` valid creations on an empty board (and no deletions) the
listing is strictly descending in `id`; it is a permutation of the table,
which holds exactly `N` rows; every page `1 ≤ i ≤ numPages` is served by
`paginate` without error as the matching slice; and concatenating all page
slices (page size `k`) restores the full listing — `N` posts, no duplicates
(ids strictly descend), no omissions. -/
theorem listing_after_creations_descending_complete
    (fs : List PostForm) (k : Nat) (hk : 0 < k)
    (hv : ∀ f ∈ fs, validForm f = true) :
    (listing (createMany emptyBoard fs)).Pairwise (fun a b => b.id < a.id) ∧
    (listing (createMany emptyBoard fs)).Perm
      (createMany emptyBoard fs).posts ∧
    (createMany emptyBoard fs).posts.length = fs.length ∧
    (∀ i : Nat, 1 ≤ i →
      i ≤ numPages (listing (createMany emptyBoard fs)).length k →
      paginate (listing (createMany emptyBoard fs)) (i : Int) k =
        .ok (pageSlice (listing (createMany emptyBoard fs)) i k)) ∧
    ((List.range (numPages (listing (createMany emptyBoard fs)).length k)).map
        fun j => pageSlice (listing (createMany emptyBoard fs)) (j + 1) k
      ).flatten = listing (createMany emptyBoard fs) := by
  have hinv0 : idsIncreasing emptyBoard.posts := by
    simp [emptyBoard, idsIncreasing]
  obtain ⟨hinv, hlen⟩ := createMany_invariant fs emptyBoard hv hinv0
  have hlen' : (createMany emptyBoard fs).posts.length = fs.length := by
    simpa [emptyBoard] using hlen
  refine ⟨listing_strict_desc _ hinv, listing_perm _, hlen', ?_, ?_⟩
  · intro i hi1 hile
    exact paginate_ok _ k i hk hi1 hile
  · have hsl : (fun j => pageSlice (listing (createMany emptyBoard fs))
        (j + 1) k) =
        fun j => ((listing (createMany emptyBoard fs)).drop (j * k)).take k := by
      funext j
      simp [pageSlice]
    rw [hsl]
    exact join_pageSlices k hk _ _ le_rfl

/-- C4 witness: two concrete valid creations, page size one. -/
theorem listing_after_creations_descending_complete_w :
    (listing (createMany emptyBoard [addFormA, addFormB])).Pairwise
      (fun a b => b.id < a.id) ∧
    (listing (createMany emptyBoard [addFormA, addFormB])).Perm
      (createMany emptyBoard [addFormA, addFormB]).posts ∧
    (createMany emptyBoard [addFormA, addFormB]).posts.length =
      [addFormA, addFormB].length ∧
    (∀ i : Nat, 1 ≤ i →
      i ≤ numPages
        (listing (createMany emptyBoard [addFormA, addFormB])).length 1 →
      paginate (listing (createMany emptyBoard [addFormA, addFormB]))
          (i : Int) 1 =
        .ok (pageSlice
          (listing (createMany emptyBoard [addFormA, addFormB])) i 1)) ∧
    ((List.range (numPages
        (listing (createMany emptyBoard [addFormA, addFormB])).length 1)).map
        fun j => pageSlice
          (listing (createMany emptyBoard [addFormA, addFormB])) (j + 1) 1
      ).flatten = listing (createMany emptyBoard [addFormA, addFormB]) :=
  listing_after_creations_descending_complete [addFormA, addFormB] 1
    (by decide) (by decide)

/-- C10 witness: a falsy value under `'logged_in'` passes the guard, and a
session without the key is redirected by a guarded route. -/
theorem login_required_passes_iff_key_present_w :
    sessionHasLoggedIn [("logged_in", PyVal.vBool false)] = true ∧
    indexRoute [] emptyBoard 1 = (emptyBoard, .redirect "login" none) :=
  ⟨(login_required_passes_iff_key_present
      [("logged_in", PyVal.vBool false)]).1.mpr ⟨PyVal.vBool false, by simp⟩,
   ((login_required_passes_iff_key_present []).2 (by decide) emptyBoard 1
      editForm 1 { post_id := none, password := none } true true).1⟩

end Board
